import Mathlib

/-!
Shallow embedding of the distributed mutual-exclusion subsystem
(`origami/batch/core/mutex.py`): the retry-with-backoff helper
`run_db_operation`, the `DatabaseMutex` lock table with its operations
`try_lock`, `unlock`, `clear_locks` and the scoped `lock`, the
`FileMutex` advisory file-lock provider, and the `DummyMutex` no-op
provider.

The relational store is modelled as a list of lock records; a
transaction that hits an integrity error rolls back, leaving the
list unchanged.  Time stamps are integers (seconds), process ids are
naturals, and sleep delays are rationals (seconds).
-/

/-- The two store error classes distinguished by the source:
`sqlalchemy.exc.OperationalError` (transient busy/locked) and
`sqlalchemy.exc.IntegrityError` (uniqueness-constraint violation). -/
inductive DbError where
  | operational : DbError
  | integrity : DbError
deriving DecidableEq, Repr

/-- Observable outcome of one call to `run_db_operation`: the value
returned or error re-raised, how many times the wrapped operation was
invoked, and the list of sleep delays (in seconds) performed between
attempts. -/
structure RunResult (α : Type) where
  result : Except DbError α
  attempts : Nat
  delays : List ℚ
deriving Repr

/-- The loop body of `run_db_operation`: `backoff = 0; while True:
try: return operation() except OperationalError as e: if backoff > 8:
raise e; time.sleep(0.1 * (2 ** backoff)); backoff += 1`.  The wrapped
operation is given the attempt index so that a store whose behaviour
changes between attempts can be modelled; `IntegrityError` is not
caught by the `except` clause and propagates at once. -/
def runDbGo (op : Nat → Except DbError α) (backoff : Nat) (idx : Nat) : RunResult α :=
  match op idx with
  | .ok a => ⟨.ok a, 1, []⟩
  | .error .integrity => ⟨.error .integrity, 1, []⟩
  | .error .operational =>
    if backoff > 8 then ⟨.error .operational, 1, []⟩
    else
      let r := runDbGo op (backoff + 1) (idx + 1)
      ⟨r.result, r.attempts + 1, (1 / 10 : ℚ) * 2 ^ backoff :: r.delays⟩
termination_by 9 - backoff
decreasing_by simp_wf; omega

/-- `run_db_operation(operation)` from the source, starting with
`backoff = 0` at the first attempt. -/
def run_db_operation (op : Nat → Except DbError α) : RunResult α :=
  runDbGo op 0 0

/-- One row of the `mutex` table: columns `path`, `processor`, `pid`,
`time`, with composite primary key `(path, processor)`. -/
structure LockRecord where
  path : String
  processor : String
  pid : Nat
  time : Int
deriving DecidableEq, Repr

/-- The persisted state of the lock table. -/
abbrev LockStore := List LockRecord

/-- Whether the table already holds a row with the given primary key
`(path, processor)` — the condition under which an insert raises
`IntegrityError`. -/
def hasLock (s : LockStore) (path processor : String) : Bool :=
  s.any fun r => r.path == path && r.processor == processor

/-- The multi-row `INSERT` issued by `try_lock`: one row per path, all
with the same `processor`, `pid` and `time`.  Rows are inserted in
order; the first primary-key conflict raises `IntegrityError` and the
whole statement is rolled back by the caller. -/
def insertAll (processor : String) (pid : Nat) (time : Int) :
    LockStore → List String → Except DbError LockStore
  | s, [] => .ok s
  | s, p :: ps =>
    if hasLock s p processor then .error .integrity
    else insertAll processor pid time (s ++ [⟨p, processor, pid, time⟩]) ps

/-- The body of `try_lock`'s `perform`: execute the insert; on
`IntegrityError` set `locked = False` and leave the table as it was
(the transaction rolls back); otherwise `locked = True` with the rows
committed. -/
def tryLockPerform (s : LockStore) (processor : String) (paths : List String)
    (pid : Nat) (time : Int) : Bool × LockStore :=
  match insertAll processor pid time s paths with
  | .ok s' => (true, s')
  | .error _ => (false, s)

/-- `DatabaseMutex.try_lock(processor, paths)`: the committed result of
the single transaction (the enclosing `run_db_operation` wrapper is
modelled by `DatabaseMutex.try_lock_run`). -/
def DatabaseMutex.try_lock (s : LockStore) (processor : String) (paths : List String)
    (pid : Nat) (time : Int) : Bool × LockStore :=
  tryLockPerform s processor paths pid time

/-- `DatabaseMutex.try_lock` as the source composes it:
`run_db_operation(perform)`.  `perform` catches `IntegrityError`
internally and returns a boolean, so the wrapped operation never
raises. -/
def DatabaseMutex.try_lock_run (s : LockStore) (processor : String) (paths : List String)
    (pid : Nat) (time : Int) : RunResult (Bool × LockStore) :=
  run_db_operation fun _ => .ok (tryLockPerform s processor paths pid time)

/-- `DatabaseMutex.unlock(processor, paths)`: `DELETE FROM mutex WHERE
processor == processor AND path IN paths AND pid == os.getpid()`. -/
def DatabaseMutex.unlock (s : LockStore) (processor : String) (paths : List String)
    (pid : Nat) : LockStore :=
  s.filter fun r => !(r.processor == processor && paths.contains r.path && r.pid == pid)

/-- `DatabaseMutex.clear_locks(age)`: delete every row when `age = 0`,
otherwise delete the rows with `time < now - age` seconds. -/
def DatabaseMutex.clear_locks (s : LockStore) (age : Nat) (now : Int) : LockStore :=
  if age = 0 then []
  else s.filter fun r => !(r.time < now - age)

/-- `DatabaseMutex.lock(processor, paths)` (a context manager):
`success = try_lock(...)`; `yield success` to the caller's body;
`finally: if success: unlock(...)`.  The body receives the acquired
flag and the store state, and finishes either normally or with an
exception, in both cases possibly having changed the store; its
outcome is propagated after the `finally` clause runs. -/
def DatabaseMutex.lock (s : LockStore) (processor : String) (paths : List String)
    (pid : Nat) (time : Int) (body : Bool → LockStore → Except ε β × LockStore) :
    Except ε β × LockStore :=
  let res := DatabaseMutex.try_lock s processor paths pid time
  let b := body res.1 res.2
  (b.1, if res.1 then DatabaseMutex.unlock b.2 processor paths pid else b.2)

/-- Outcome of one `portalocker.Lock(path, "r", flags=LOCK_EX,
timeout=1, fail_when_locked=True)` acquisition on a given path:
success, one of the two caught lock failures
(`portalocker.exceptions.AlreadyLocked`,
`portalocker.exceptions.LockException`), or any other error (e.g.
`FileNotFoundError` from opening the path in read mode). -/
inductive FlockOutcome where
  | acquired : FlockOutcome
  | alreadyLocked : FlockOutcome
  | lockException : FlockOutcome
  | osError : FlockOutcome
deriving DecidableEq, Repr

/-- Exceptions a lock provider can let escape to its caller. -/
inductive PyExc where
  | runtimeError (msg : String) : PyExc
  | osError : PyExc
deriving DecidableEq, Repr

/-- `FileMutex.lock(processor, paths)`: `if len(paths) != 1: raise
RuntimeError(...)`; otherwise take the advisory lock on the single
path and yield `True`, or yield `False` when the acquisition raises
`AlreadyLocked` or `LockException`; any other acquisition error is not
caught.  The OS lock table is modelled by `env`, giving the outcome
the `portalocker` call would have on each path. -/
def FileMutex.lock (env : String → FlockOutcome) (_processor : String)
    (paths : List String) : Except PyExc Bool :=
  match paths with
  | [p] =>
    match env p with
    | .acquired => .ok true
    | .alreadyLocked => .ok false
    | .lockException => .ok false
    | .osError => .error .osError
  | _ => .error (.runtimeError "FileMutex does not support chunked locking")

/-- `DummyMutex.try_lock`: always `True`, no state touched. -/
def DummyMutex.try_lock (s : Unit) (_processor : String) (_paths : List String) :
    Bool × Unit :=
  (true, s)

/-- `DummyMutex.unlock`: `pass`. -/
def DummyMutex.unlock (s : Unit) (_processor : String) (_paths : List String) : Unit :=
  s

/-- `DummyMutex.lock`: always yields `True`. -/
def DummyMutex.lock (s : Unit) (_processor : String) (_paths : List String) :
    Except PyExc Bool × Unit :=
  (.ok true, s)

/-- The capability set `{try_lock, unlock, lock(scoped)}` of a lock
provider over its state type `σ`: each field is `some` operation when
the class defines the method and `none` when it does not. -/
structure ProviderOps (σ : Type) where
  try_lock : Option (σ → String → List String → Bool × σ)
  unlock : Option (σ → String → List String → σ)
  lock : Option (σ → String → List String → Except PyExc Bool × σ)

/-- The methods `DatabaseMutex` defines, with the scoped `lock` run
with a trivial body. -/
def DatabaseMutex.ops (pid : Nat) (time : Int) : ProviderOps LockStore where
  try_lock := some fun s processor paths => DatabaseMutex.try_lock s processor paths pid time
  unlock := some fun s processor paths => DatabaseMutex.unlock s processor paths pid
  lock := some fun s processor paths =>
    DatabaseMutex.lock s processor paths pid time fun acquired st => (.ok acquired, st)

/-- The methods `FileMutex` defines: only the scoped `lock`; the class
has no `try_lock` and no `unlock` method. -/
def FileMutex.ops (env : String → FlockOutcome) : ProviderOps Unit where
  try_lock := none
  unlock := none
  lock := some fun s processor paths => (FileMutex.lock env processor paths, s)

/-- The methods `DummyMutex` defines. -/
def DummyMutex.ops : ProviderOps Unit where
  try_lock := some DummyMutex.try_lock
  unlock := some DummyMutex.unlock
  lock := some DummyMutex.lock

/-! Helper lemmas about the multi-row insert. -/

theorem hasLock_append (s l : LockStore) (p processor : String) :
    hasLock (s ++ l) p processor = (hasLock s p processor || hasLock l p processor) := by
  simp [hasLock, List.any_append]

theorem insertAll_error_integrity (processor : String) (pid : Nat) (time : Int)
    (paths : List String) :
    ∀ (s : LockStore) (e : DbError),
      insertAll processor pid time s paths = .error e → e = DbError.integrity := by
  induction paths with
  | nil => intro s e h; simp [insertAll] at h
  | cons p ps ih =>
    intro s e h
    by_cases hc : hasLock s p processor = true
    · simp [insertAll, hc] at h
      exact h.symm
    · simp only [insertAll, hc, if_false] at h
      exact ih _ _ h

theorem insertAll_ok_eq (processor : String) (pid : Nat) (time : Int)
    (paths : List String) :
    ∀ (s s' : LockStore), insertAll processor pid time s paths = .ok s' →
      s' = s ++ paths.map fun p => ⟨p, processor, pid, time⟩ := by
  induction paths with
  | nil => intro s s' h; simp [insertAll] at h; simp [h.symm]
  | cons p ps ih =>
    intro s s' h
    by_cases hc : hasLock s p processor = true
    · simp [insertAll, hc] at h
    · simp only [insertAll, hc, if_false] at h
      have := ih _ _ h
      simpa [List.append_assoc] using this

theorem insertAll_ok_no_conflict (processor : String) (pid : Nat) (time : Int)
    (paths : List String) :
    ∀ (s s' : LockStore), insertAll processor pid time s paths = .ok s' →
      ∀ p ∈ paths, hasLock s p processor = false := by
  induction paths with
  | nil => intro s s' _ p hp; simp at hp
  | cons q qs ih =>
    intro s s' h p hp
    by_cases hc : hasLock s q processor = true
    · simp [insertAll, hc] at h
    · simp only [insertAll, hc, if_false] at h
      rcases List.mem_cons.mp hp with rfl | hp'
      · exact Bool.eq_false_iff.mpr hc
      · have := ih _ _ h p hp'
        rw [hasLock_append] at this
        exact (Bool.or_eq_false_iff.mp this).1

/-- C1: for every processor and non-empty list of paths,
`DatabaseMutex.try_lock` inserts one lock record per path in a single
transaction.  If it returns `false` the store is unchanged (no partial
locks remain), and it returns `false` exactly when some insertion hit
the `(path, processor)` uniqueness constraint; if it returns `true`,
every pre-existing record is still present and one record per
requested path is present. -/
theorem C1_try_lock_all_or_nothing (s : LockStore) (processor : String)
    (paths : List String) (pid : Nat) (time : Int) (_hne : paths ≠ []) :
    ((DatabaseMutex.try_lock s processor paths pid time).1 = false →
      (DatabaseMutex.try_lock s processor paths pid time).2 = s) ∧
    ((DatabaseMutex.try_lock s processor paths pid time).1 = true →
      (∀ r ∈ s, r ∈ (DatabaseMutex.try_lock s processor paths pid time).2) ∧
      ∀ p ∈ paths, (⟨p, processor, pid, time⟩ : LockRecord) ∈
        (DatabaseMutex.try_lock s processor paths pid time).2) ∧
    ((DatabaseMutex.try_lock s processor paths pid time).1 = false ↔
      insertAll processor pid time s paths = .error DbError.integrity) := by
  unfold DatabaseMutex.try_lock tryLockPerform
  cases hi : insertAll processor pid time s paths with
  | ok s' =>
    have he := insertAll_ok_eq processor pid time paths s s' hi
    subst he
    refine ⟨by simp, fun _ => ⟨fun r hr => ?_, fun p hp => ?_⟩, by simp⟩
    · exact List.mem_append_left _ hr
    · exact List.mem_append_right _ (List.mem_map.mpr ⟨p, hp, rfl⟩)
  | error e =>
    have he := insertAll_error_integrity processor pid time paths s e hi
    subst he
    exact ⟨fun _ => rfl, by simp, by simp⟩

/-- Witness for C1 at a concrete input: claiming two fresh paths in an
empty store succeeds and leaves one record per path. -/
theorem C1_witness :
    (["a", "b"] : List String) ≠ [] ∧
    (((DatabaseMutex.try_lock [] "proc" ["a", "b"] 7 3).1 = false →
      (DatabaseMutex.try_lock [] "proc" ["a", "b"] 7 3).2 = []) ∧
    ((DatabaseMutex.try_lock [] "proc" ["a", "b"] 7 3).1 = true →
      (∀ r ∈ ([] : LockStore), r ∈ (DatabaseMutex.try_lock [] "proc" ["a", "b"] 7 3).2) ∧
      ∀ p ∈ (["a", "b"] : List String), (⟨p, "proc", 7, 3⟩ : LockRecord) ∈
        (DatabaseMutex.try_lock [] "proc" ["a", "b"] 7 3).2) ∧
    ((DatabaseMutex.try_lock [] "proc" ["a", "b"] 7 3).1 = false ↔
      insertAll "proc" 7 3 [] ["a", "b"] = .error DbError.integrity)) :=
  ⟨by decide, C1_try_lock_all_or_nothing [] "proc" ["a", "b"] 7 3 (by decide)⟩

/-- C2 counterexample: on an operation that always raises the
transient operational error, `run_db_operation` invokes the operation
10 times (the `backoff > 8` check runs after a failed attempt, so
attempts happen at backoff 0 through 9), not the 9 the claim states. -/
theorem C2_counterexample :
    (run_db_operation fun _ => (.error .operational : Except DbError Unit)).attempts = 10 ∧
    (run_db_operation fun _ => (.error .operational : Except DbError Unit)).attempts ≠ 9 := by
  constructor <;> simp [run_db_operation, runDbGo]

/-- C2 amended: given an operation that always raises the transient
operational error, `run_db_operation` makes exactly 10 attempts (the
initial call plus 9 retries) before re-raising the underlying error,
and the delay before retry number k (k = 0 .. 8) is 0.1 · 2^k seconds,
a non-decreasing doubling schedule. -/
theorem C2_retry_backoff_schedule :
    (run_db_operation fun _ => (.error .operational : Except DbError Unit)).attempts = 10 ∧
    (run_db_operation fun _ => (.error .operational : Except DbError Unit)).result =
      .error DbError.operational ∧
    (run_db_operation fun _ => (.error .operational : Except DbError Unit)).delays =
      (List.range 9).map (fun k => (1 / 10 : ℚ) * 2 ^ k) ∧
    List.Chain' (fun a b => a ≤ b)
      (run_db_operation fun _ => (.error .operational : Except DbError Unit)).delays := by
  refine ⟨?_, ?_, ?_, ?_⟩ <;>
    · simp [run_db_operation, runDbGo, List.range_succ]
      try norm_num

/-- C3 counterexample: `FileMutex` does not expose the full capability
set — the class defines no `try_lock` (nor `unlock`) method, so the
three providers are not interchangeable over
`{try_lock, unlock, lock}`. -/
theorem C3_counterexample :
    ¬ ((FileMutex.ops fun _ => FlockOutcome.acquired).try_lock.isSome = true ∧
       (FileMutex.ops fun _ => FlockOutcome.acquired).unlock.isSome = true ∧
       (FileMutex.ops fun _ => FlockOutcome.acquired).lock.isSome = true) := by
  simp [FileMutex.ops]

/-- C3 amended: `DatabaseMutex` and `DummyMutex` expose all three
operations of the capability interface (`try_lock`, `unlock`, scoped
`lock`), while `FileMutex` exposes only the scoped `lock`; only the
scoped `lock` entry point is common to all three providers. -/
theorem C3_provider_capabilities (pid : Nat) (time : Int)
    (env : String → FlockOutcome) :
    ((DatabaseMutex.ops pid time).try_lock.isSome = true ∧
     (DatabaseMutex.ops pid time).unlock.isSome = true ∧
     (DatabaseMutex.ops pid time).lock.isSome = true) ∧
    (DummyMutex.ops.try_lock.isSome = true ∧
     DummyMutex.ops.unlock.isSome = true ∧
     DummyMutex.ops.lock.isSome = true) ∧
    ((FileMutex.ops env).try_lock = none ∧
     (FileMutex.ops env).unlock = none ∧
     (FileMutex.ops env).lock.isSome = true) := by
  simp [DatabaseMutex.ops, DummyMutex.ops, FileMutex.ops]

/-- C4: `DatabaseMutex.lock` yields the boolean returned by
`try_lock` to the caller's body, and on every exit path — body
returning normally or raising, both covered by the arbitrary outcome
`r` — it applies `unlock` exactly when `try_lock` returned `true`,
and leaves the body's store untouched when acquisition failed. -/
theorem C4_lock_scoped_release {ε β : Type} (s : LockStore) (processor : String)
    (paths : List String) (pid : Nat) (time : Int)
    (body : Bool → LockStore → Except ε β × LockStore)
    (r : Except ε β) (s2 : LockStore)
    (hb : body (DatabaseMutex.try_lock s processor paths pid time).1
              (DatabaseMutex.try_lock s processor paths pid time).2 = (r, s2)) :
    DatabaseMutex.lock s processor paths pid time body =
      (r, if (DatabaseMutex.try_lock s processor paths pid time).1 = true
          then DatabaseMutex.unlock s2 processor paths pid
          else s2) := by
  simp only [DatabaseMutex.lock, hb]

/-- Witness for C4 at a concrete input: a body that raises still has
the acquired lock released on the way out. -/
theorem C4_witness :
    DatabaseMutex.lock [] "proc" ["a"] 7 3
        (fun _ st => ((Except.error () : Except Unit Unit), st)) =
      (Except.error (), if (DatabaseMutex.try_lock [] "proc" ["a"] 7 3).1 = true
          then DatabaseMutex.unlock (DatabaseMutex.try_lock [] "proc" ["a"] 7 3).2
                 "proc" ["a"] 7
          else (DatabaseMutex.try_lock [] "proc" ["a"] 7 3).2) :=
  C4_lock_scoped_release [] "proc" ["a"] 7 3 _ _ _ rfl

/-- C5: `DatabaseMutex.unlock` deletes exactly the records whose
`processor`, `path` and `pid` all match (`pid` being the calling
process's id), and keeps every other record with unchanged
multiplicity — in particular records whose `pid` differs. -/
theorem C5_unlock_frame (s : LockStore) (processor : String) (paths : List String)
    (pid : Nat) (r : LockRecord) :
    (DatabaseMutex.unlock s processor paths pid).count r =
      if r.processor = processor ∧ r.path ∈ paths ∧ r.pid = pid
      then 0 else s.count r := by
  by_cases hm : r.processor = processor ∧ r.path ∈ paths ∧ r.pid = pid
  · rw [if_pos hm]
    refine List.count_eq_zero.mpr fun hmem => ?_
    have := (List.mem_filter.mp hmem).2
    simp [hm.1, hm.2.1, hm.2.2] at this
  · rw [if_neg hm]
    refine List.count_filter ?_
    cases hval : (r.processor == processor && paths.contains r.path && r.pid == pid) with
    | false => simp [hval]
    | true =>
      exfalso
      simp only [Bool.and_eq_true, beq_iff_eq, List.contains, List.elem_iff] at hval
      exact hm ⟨hval.1.1, hval.1.2, hval.2⟩

/-- C6: an integrity (uniqueness-constraint) failure during `try_lock`
is never retried: the wrapped operation catches it inside the single
attempt, so `run_db_operation` sees a clean return — one attempt, no
backoff sleeps — whose value is `false` exactly when the insert hit
the constraint; moreover `run_db_operation` re-raises an uncaught
integrity error immediately without sleeping, while only the
operational error class drives the retry loop past one attempt. -/
theorem C6_integrity_not_retried (s : LockStore) (processor : String)
    (paths : List String) (pid : Nat) (time : Int) :
    (DatabaseMutex.try_lock_run s processor paths pid time).attempts = 1 ∧
    (DatabaseMutex.try_lock_run s processor paths pid time).delays = [] ∧
    (DatabaseMutex.try_lock_run s processor paths pid time).result =
      .ok (DatabaseMutex.try_lock s processor paths pid time) ∧
    ((DatabaseMutex.try_lock s processor paths pid time).1 = false ↔
      insertAll processor pid time s paths = .error DbError.integrity) ∧
    (run_db_operation fun _ => (.error .integrity : Except DbError Unit)).attempts = 1 ∧
    (run_db_operation fun _ => (.error .integrity : Except DbError Unit)).result =
      .error DbError.integrity ∧
    (run_db_operation fun _ => (.error .integrity : Except DbError Unit)).delays = [] ∧
    1 < (run_db_operation fun _ => (.error .operational : Except DbError Unit)).attempts := by
  refine ⟨?_, ?_, ?_, ?_, ?_, ?_, ?_, ?_⟩
  · simp [DatabaseMutex.try_lock_run, run_db_operation, runDbGo]
  · simp [DatabaseMutex.try_lock_run, run_db_operation, runDbGo]
  · simp [DatabaseMutex.try_lock_run, run_db_operation, runDbGo, DatabaseMutex.try_lock]
  · unfold DatabaseMutex.try_lock tryLockPerform
    cases hi : insertAll processor pid time s paths with
    | ok s' => simp
    | error e =>
      have he := insertAll_error_integrity processor pid time paths s e hi
      subst he
      simp
  · simp [run_db_operation, runDbGo]
  · simp [run_db_operation, runDbGo]
  · simp [run_db_operation, runDbGo]
  · simp [run_db_operation, runDbGo]

/-- C7: a successful `try_lock(processor, S)` followed by
`unlock(processor, S)` in the same process restores the lock table to
exactly its previous state, so any subsequent `try_lock` — any
processor, any paths — behaves exactly as it would have before the
pair of calls. -/
theorem C7_round_trip (s : LockStore) (processor : String) (paths : List String)
    (pid : Nat) (time : Int)
    (h : (DatabaseMutex.try_lock s processor paths pid time).1 = true) :
    DatabaseMutex.unlock (DatabaseMutex.try_lock s processor paths pid time).2
        processor paths pid = s ∧
    ∀ (processor' : String) (paths' : List String) (pid' : Nat) (time' : Int),
      DatabaseMutex.try_lock
          (DatabaseMutex.unlock (DatabaseMutex.try_lock s processor paths pid time).2
            processor paths pid)
          processor' paths' pid' time' =
        DatabaseMutex.try_lock s processor' paths' pid' time' := by
  have hkey : DatabaseMutex.unlock
      (DatabaseMutex.try_lock s processor paths pid time).2 processor paths pid = s := by
    unfold DatabaseMutex.try_lock tryLockPerform at h ⊢
    cases hi : insertAll processor pid time s paths with
    | error e => rw [hi] at h; simp at h
    | ok s' =>
      have he := insertAll_ok_eq processor pid time paths s s' hi
      have hnc := insertAll_ok_no_conflict processor pid time paths s s' hi
      subst he
      unfold DatabaseMutex.unlock
      rw [List.filter_append]
      have h1 : List.filter
          (fun r => !(r.processor == processor && paths.contains r.path && r.pid == pid)) s
          = s := by
        refine List.filter_eq_self.mpr fun a ha => ?_
        cases hval : (a.processor == processor && paths.contains a.path && a.pid == pid) with
        | false => simp [hval]
        | true =>
          exfalso
          simp only [Bool.and_eq_true, beq_iff_eq, List.contains, List.elem_iff] at hval
          have hmem : hasLock s a.path processor = true :=
            List.any_eq_true.mpr ⟨a, ha, by simp [hval.1.1]⟩
          rw [hnc a.path hval.1.2] at hmem
          exact Bool.false_ne_true hmem
      have h2 : List.filter
          (fun r => !(r.processor == processor && paths.contains r.path && r.pid == pid))
          (paths.map fun p => (⟨p, processor, pid, time⟩ : LockRecord)) = [] := by
        refine List.filter_eq_nil_iff.mpr fun b hb => ?_
        rcases List.mem_map.mp hb with ⟨p, hp, rfl⟩
        simp [List.contains, List.elem_iff, hp]
      rw [h1, h2, List.append_nil]
  exact ⟨hkey, fun processor' paths' pid' time' => by rw [hkey]⟩

/-- Witness for C7 at a concrete input: claiming a fresh path in an
empty table and releasing it returns to the empty table, and a
subsequent claim behaves as on the empty table. -/
theorem C7_witness :
    (DatabaseMutex.try_lock [] "proc" ["a"] 7 3).1 = true ∧
    (DatabaseMutex.unlock (DatabaseMutex.try_lock [] "proc" ["a"] 7 3).2
        "proc" ["a"] 7 = [] ∧
      DatabaseMutex.try_lock
          (DatabaseMutex.unlock (DatabaseMutex.try_lock [] "proc" ["a"] 7 3).2
            "proc" ["a"] 7)
          "other" ["a"] 9 4 =
        DatabaseMutex.try_lock [] "other" ["a"] 9 4) :=
  ⟨by decide, (C7_round_trip [] "proc" ["a"] 7 3 (by decide)).1,
    (C7_round_trip [] "proc" ["a"] 7 3 (by decide)).2 "other" ["a"] 9 4⟩

/-- C8: `clear_locks` with age 0 deletes every record regardless of
owner or timestamp; running it twice in succession is safe and leaves
zero records; and with a non-zero age it deletes exactly the records
whose timestamp is older than `age` seconds before the current time,
keeping every other record with unchanged multiplicity. -/
theorem C8_clear_locks_sweep (s : LockStore) (now now2 : Int) (age : Nat)
    (r : LockRecord) (hage : age ≠ 0) :
    DatabaseMutex.clear_locks s 0 now = [] ∧
    DatabaseMutex.clear_locks (DatabaseMutex.clear_locks s 0 now) 0 now2 = [] ∧
    (DatabaseMutex.clear_locks s age now).count r =
      (if r.time < now - (age : Int) then 0 else s.count r) := by
  refine ⟨by simp [DatabaseMutex.clear_locks],
    by simp [DatabaseMutex.clear_locks], ?_⟩
  unfold DatabaseMutex.clear_locks
  rw [if_neg hage]
  by_cases ht : r.time < now - (age : Int)
  · rw [if_pos ht]
    refine List.count_eq_zero.mpr fun hmem => ?_
    have hpred := (List.mem_filter.mp hmem).2
    simp [ht] at hpred
  · rw [if_neg ht]
    refine List.count_filter ?_
    simp [ht]

/-- Witness for C8 at a concrete input: a record stamped at time 0 is
swept by `clear_locks 5` at time 11, and the age-0 sweep empties the
table idempotently. -/
theorem C8_witness :
    (5 : Nat) ≠ 0 ∧
    (DatabaseMutex.clear_locks [⟨"a", "proc", 7, 0⟩] 0 11 = [] ∧
     DatabaseMutex.clear_locks
       (DatabaseMutex.clear_locks [⟨"a", "proc", 7, 0⟩] 0 11) 0 12 = [] ∧
     (DatabaseMutex.clear_locks [⟨"a", "proc", 7, 0⟩] 5 11).count ⟨"a", "proc", 7, 0⟩ =
       (if (0 : Int) < 11 - (5 : Int)
        then 0 else ([⟨"a", "proc", 7, 0⟩] : LockStore).count ⟨"a", "proc", 7, 0⟩)) :=
  ⟨by decide, C8_clear_locks_sweep [⟨"a", "proc", 7, 0⟩] 11 12 5 ⟨"a", "proc", 7, 0⟩
    (by decide)⟩

/-- C9: `FileMutex.lock` with a path list whose length is not 1
raises the usage `RuntimeError` at once; the outcome does not depend
on the OS lock environment, so no advisory lock is attempted and no
boolean is yielded. -/
theorem C9_file_mutex_rejects_multipath (env env2 : String → FlockOutcome)
    (processor : String) (paths : List String) (h : paths.length ≠ 1) :
    FileMutex.lock env processor paths =
      .error (.runtimeError "FileMutex does not support chunked locking") ∧
    FileMutex.lock env processor paths = FileMutex.lock env2 processor paths := by
  match paths with
  | [] => exact ⟨rfl, rfl⟩
  | [p] => exact absurd rfl h
  | a :: b :: rest => exact ⟨rfl, rfl⟩

/-- Witness for C9 at a concrete input: a two-path request fails with
the usage error under any lock environment. -/
theorem C9_witness :
    (["a", "b"] : List String).length ≠ 1 ∧
    (FileMutex.lock (fun _ => FlockOutcome.acquired) "proc" ["a", "b"] =
       .error (.runtimeError "FileMutex does not support chunked locking") ∧
     FileMutex.lock (fun _ => FlockOutcome.acquired) "proc" ["a", "b"] =
       FileMutex.lock (fun _ => FlockOutcome.osError) "proc" ["a", "b"]) :=
  ⟨by decide, C9_file_mutex_rejects_multipath (fun _ => FlockOutcome.acquired)
    (fun _ => FlockOutcome.osError) "proc" ["a", "b"] (by decide)⟩

/-- C10: on a single-path call, `FileMutex.lock` yields `false`
exactly when the advisory-lock acquisition fails with the
already-locked or lock-exception conditions; any other failure (such
as an OS error from opening a missing path in read mode) propagates
as an exception rather than yielding `false`. -/
theorem C10_file_mutex_single_path (env : String → FlockOutcome)
    (processor : String) (p : String) :
    (FileMutex.lock env processor [p] = .ok false ↔
      env p = .alreadyLocked ∨ env p = .lockException) ∧
    (FileMutex.lock env processor [p] = .error PyExc.osError ↔
      env p = .osError) := by
  cases henv : env p <;> simp [FileMutex.lock, henv]
